/-
Verification of the terrafs core (src/terrafs.cpp): listing parser,
listing cache with negative caching, path resolver, and the read-only
filesystem operations (readDir, getAttr, open, read).

The embedding is shallow: each C++ function is translated to a Lean
function over explicit state.  Crashes of the C++ code (out-of-range
vector access in the parser, a throwing std::stol) are modelled by
`Option`: `none` means the C++ code would not return normally.
-/
import Mathlib

set_option maxHeartbeats 1000000

deriving instance DecidableEq for Except

namespace Terrafs

/-! ## The C++ `split` helper (terrafs.cpp lines 39-55).

`split(s, delim)` repeatedly calls `std::getline(ss, item, delim)`.
`getline` consumes up to and including the delimiter and fails (ending
the loop) only when the stream is already exhausted.  Hence the empty
string yields no tokens, and a string ending in the delimiter does not
produce a trailing empty token. -/

def cppSplitList (d : Char) : List Char → List (List Char)
  | [] => []
  | c :: cs =>
    if c = d then [] :: cppSplitList d cs
    else
      match cppSplitList d cs with
      | [] => [[c]]
      | t :: ts => (c :: t) :: ts

def cppSplit (s : String) (d : Char) : List String :=
  (cppSplitList d s.data).map (fun l => ⟨l⟩)

/-! ## `std::stol` model.

`stol` skips leading whitespace, accepts an optional sign, and requires
at least one digit, otherwise it throws `std::invalid_argument`; a value
outside `long`'s range throws `std::out_of_range`.  Both throws are
modelled as `none`.  The code targets LP64 Linux (built with g++ against
fuse/libcurl), where `long` is 64 bits, so the range is
`[-9223372036854775808, 9223372036854775807]`. -/

def isCppSpace (c : Char) : Bool :=
  c = ' ' || c = '\t' || c = '\n' || c = '\x0b' || c = '\x0c' || c = '\r'

def digitsVal (cs : List Char) : Option Nat :=
  let ds := cs.takeWhile Char.isDigit
  if ds = [] then none
  else some (ds.foldl (fun a c => a * 10 + (c.toNat - 48)) 0)

def cppStol (s : String) : Option Int :=
  let parsed : Option Int :=
    match s.data.dropWhile isCppSpace with
    | '-' :: rest => (digitsVal rest).map (fun n => -(n : Int))
    | '+' :: rest => (digitsVal rest).map (fun n => (n : Int))
    | cs => (digitsVal cs).map (fun n => (n : Int))
  match parsed with
  | none => none
  | some v =>
    if -9223372036854775808 ≤ v ∧ v ≤ 9223372036854775807 then some v
    else none

/-! ## Directory-index entries (terrafs.cpp lines 57-121).

The C++ code uses two subclasses of `DirIndexEntry` distinguished by
`dynamic_cast`; the parser only ever constructs these two, so a
two-constructor inductive is a faithful model.  `DirIndexEntry::name`
is `data[1]`; `FileDirIndexEntry::size` is `unsigned size = stol(data[3])`,
i.e. the `long` result reduced mod 2^32. -/

inductive DirIndexEntry where
  | dir (name : String)
  | file (name : String) (size : Nat)
deriving DecidableEq

def DirIndexEntry.name : DirIndexEntry → String
  | .dir n => n
  | .file n _ => n

/-! ## The listing parser `DirIndex::DirIndex` (terrafs.cpp lines 143-172). -/

structure DirIndex where
  version : Nat
  path : String
  entries : List DirIndexEntry
deriving DecidableEq

/-- Initial parser state.  The C++ constructor leaves `version` and
`path` uninitialized when no corresponding line occurs; the model fixes
them to 0 and "" (no claim depends on that choice). -/
def emptyDirIndex : DirIndex := ⟨0, "", []⟩

/-- The body of one iteration of the `while (getline(ss, line))` loop of
`DirIndex::DirIndex`, applied to the token vector of the line.  `none`
models a crash: `tokens[0]` / `tokens[1]` / `tokens[3]` past the end of
the vector, or a throwing `stol`. -/
def parseTokens (di : DirIndex) (tokens : List String) : Option DirIndex :=
  match tokens with
  | [] => none
  | t0 :: _ =>
    if t0 = "version" then
      match tokens.get? 1 with
      | none => none
      | some t1 =>
        match cppStol t1 with
        | none => none
        | some v => some { di with version := (v % (2 ^ 32 : Int)).toNat }
    else if t0 = "path" then
      some { di with path := if tokens.length > 2 then tokens.getD 1 "" else "" }
    else if t0 = "d" then
      match tokens.get? 1 with
      | none => none
      | some n => some { di with entries := di.entries ++ [.dir n] }
    else if t0 = "f" then
      match tokens.get? 1, tokens.get? 3 with
      | some n, some t3 =>
        match cppStol t3 with
        | none => none
        | some v =>
            some { di with entries := di.entries ++ [.file n ((v % (2 ^ 32 : Int)).toNat)] }
      | _, _ => none
    else some di

/-- One iteration of the `while (getline(ss, line))` loop of
`DirIndex::DirIndex`: `vector<string> tokens = split(line, ':')`
followed by the token dispatch. -/
def parseLine (di : DirIndex) (line : String) : Option DirIndex :=
  parseTokens di (cppSplit line ':')

/-- `DirIndex::DirIndex(const string & data)`: split into lines (getline
with the default delimiter) and process each in order. -/
def DirIndex.parse (data : String) : Option DirIndex :=
  (cppSplit data '\n').foldlM parseLine emptyDirIndex

/-- `DirIndex::find` (terrafs.cpp lines 178-187): first entry whose
name equals `name`, else null. -/
def DirIndex.find (di : DirIndex) (name : String) : Option DirIndexEntry :=
  di.entries.find? (fun e => e.name == name)

/-- The precondition of C9, on one line of a listing: the line is
non-empty, a `version` line has a second token that `stol` accepts, a
`d` line has at least two tokens, and an `f` line has at least four
tokens of which the fourth is accepted by `stol`. -/
def linePre (line : String) : Prop :=
  line ≠ "" ∧
  ((cppSplit line ':').headD "" = "version" →
     2 ≤ (cppSplit line ':').length ∧
     (cppStol ((cppSplit line ':').getD 1 "")).isSome = true) ∧
  ((cppSplit line ':').headD "" = "d" → 2 ≤ (cppSplit line ':').length) ∧
  ((cppSplit line ':').headD "" = "f" →
     4 ≤ (cppSplit line ':').length ∧
     (cppStol ((cppSplit line ':').getD 3 "")).isSome = true)

instance (line : String) : Decidable (linePre line) := by
  unfold linePre
  infer_instance

/-! ## TerraFs state.

`dirIndexCache` is the `std::map<const string, DirIndex_ptr>`; a `none`
value is the null pointer used as the negative-cache marker.  The model
additionally records the list of URLs passed to `Curlie::getFile`, in
order, so that theorems can speak about how often the transport client
is invoked.  The transport client itself is a parameter
`fetch : String → Nat × String` giving the HTTP status code and body. -/

structure FsState where
  cache : List (String × Option DirIndex)
  trace : List String
deriving DecidableEq

def initState : FsState := ⟨[], []⟩

/-- `TerraFs::getDirIndex` (terrafs.cpp lines 294-309).  The cache key is
`baseUrl + path`; on a miss the URL `baseUrl + path + "/.dirindex"` is
fetched, a 200 body is parsed, anything else is cached as the null
(absent) marker.  Outer `none` models the crash of `new DirIndex(...)`
on malformed 200 content. -/
def getDirIndex (fetch : String → Nat × String) (baseUrl : String)
    (st : FsState) (path : String) : Option (Option DirIndex × FsState) :=
  let url := baseUrl ++ path
  match st.cache.lookup url with
  | some di => some (di, st)
  | none =>
    let r := fetch (url ++ "/.dirindex")
    let tr := st.trace ++ [url ++ "/.dirindex"]
    if r.1 = 200 then
      match DirIndex.parse r.2 with
      | none => none
      | some di => some (some di, ⟨(url, some di) :: st.cache, tr⟩)
    else
      some (none, ⟨(url, none) :: st.cache, tr⟩)

/-- `path.find_last_of('/')` followed by the two `substr` calls of
`TerraFs::getDirIndexEntry`: `none` when there is no separator, else
`some (parent, leaf)` split at the last separator. -/
def splitLast (d : Char) : List Char → Option (List Char × List Char)
  | [] => none
  | c :: cs =>
    match splitLast d cs with
    | some (p, f) => some (c :: p, f)
    | none => if c = d then some ([], cs) else none

/-- `TerraFs::getDirIndexEntry` (terrafs.cpp lines 356-373): split off the
leaf, get the parent's index through the cache, and look the leaf up. -/
def getDirIndexEntry (fetch : String → Nat × String) (baseUrl : String)
    (st : FsState) (path : String) : Option (Option DirIndexEntry × FsState) :=
  match splitLast '/' path.data with
  | none => some (none, st)
  | some (p, f) =>
    match getDirIndex fetch baseUrl st ⟨p⟩ with
    | none => none
    | some (none, st1) => some (none, st1)
    | some (some di, st1) => some (di.find ⟨f⟩, st1)

/-! ## The filesystem operations. -/

def S_IFDIR : Nat := 0o40000
def S_IFREG : Nat := 0o100000

inductive FsError where
  | NotFound
  | PermissionDenied
deriving DecidableEq

/-- One record handed to the fuse `filler` by `TerraFs::readDir`. -/
structure StatRec where
  name : String
  mode : Nat
  size : Nat
  nlink : Nat
deriving DecidableEq

/-- The `struct stat` produced for one entry in the `readDir` loop
(terrafs.cpp lines 331-351).  Note the directory branch uses the
decimal literal `544`, not octal `0544`. -/
def entryStat : DirIndexEntry → StatRec
  | .file n sz => ⟨n, S_IFDIR ||| 0o444, sz, 1⟩
  | .dir n => ⟨n, S_IFDIR ||| 544, 0, 1⟩

/-- `TerraFs::readDir` (terrafs.cpp lines 311-354). -/
def readDir (fetch : String → Nat × String) (baseUrl : String)
    (staticRoot : Bool) (st : FsState) (path : String) :
    Option (Except FsError (List StatRec) × FsState) :=
  if staticRoot = true ∧ path = "/" then
    some (.ok [⟨"Airports", S_IFDIR ||| 0o544, 0, 1⟩,
               ⟨"Objects", S_IFDIR ||| 0o544, 0, 1⟩,
               ⟨"Models", S_IFDIR ||| 0o544, 0, 1⟩,
               ⟨"Terrain", S_IFDIR ||| 0o544, 0, 1⟩], st)
  else
    match getDirIndex fetch baseUrl st path with
    | none => none
    | some (none, st1) => some (.error .NotFound, st1)
    | some (some di, st1) => some (.ok (di.entries.map entryStat), st1)

/-- The attribute triple filled into `struct stat` by `TerraFs::getAttr`. -/
structure Attr where
  mode : Nat
  size : Nat
  nlink : Nat
deriving DecidableEq

/-- `TerraFs::getAttr` (terrafs.cpp lines 375-420). -/
def getAttr (fetch : String → Nat × String) (baseUrl : String)
    (staticRoot : Bool) (st : FsState) (path : String) :
    Option (Except FsError Attr × FsState) :=
  if path = "/" then
    some (.ok ⟨S_IFDIR ||| 0o544, 0, 1⟩, st)
  else if staticRoot = true ∧ (path = "/Airports" ∨ path = "/Objects" ∨
      path = "/Models" ∨ path = "/Terrain") then
    some (.ok ⟨S_IFDIR ||| 0o544, 0, 1⟩, st)
  else
    match getDirIndexEntry fetch baseUrl st path with
    | none => none
    | some (none, st1) => some (.error .NotFound, st1)
    | some (some (.file _ sz), st1) => some (.ok ⟨S_IFREG ||| 0o444, sz, 1⟩, st1)
    | some (some (.dir _), st1) => some (.ok ⟨S_IFDIR ||| 0o555, 0, 1⟩, st1)

/-- `TerraFs::open` (terrafs.cpp lines 422-442).  `fi->flags & 3` must be
`O_RDONLY` (0); then the entry is resolved, the file content is fetched
from `baseUrl + path`, and on a 200 the content buffer becomes the
handle.  The content fetch is recorded in the trace. -/
def openFile (fetch : String → Nat × String) (baseUrl : String)
    (st : FsState) (path : String) (flags : Nat) :
    Option (Except FsError String × FsState) :=
  if flags &&& 3 ≠ 0 then some (.error .PermissionDenied, st)
  else
    match getDirIndexEntry fetch baseUrl st path with
    | none => none
    | some (none, st1) => some (.error .NotFound, st1)
    | some (some _, st1) =>
      let r := fetch (baseUrl ++ path)
      let st2 : FsState := ⟨st1.cache, st1.trace ++ [baseUrl ++ path]⟩
      if r.1 = 200 then some (.ok r.2, st2)
      else some (.error .NotFound, st2)

/-- `TerraFs::read` (terrafs.cpp lines 452-476).  `content` is the
buffer stored behind `fi->fh` by `open`; the returned list is the bytes
copied into `buf` (the C++ return value is its length). -/
def readFile (fetch : String → Nat × String) (baseUrl : String)
    (st : FsState) (path : String) (flags : Nat) (content : List Char)
    (size offset : Nat) :
    Option (Except FsError (List Char) × FsState) :=
  if flags &&& 3 ≠ 0 then some (.error .PermissionDenied, st)
  else
    match getDirIndexEntry fetch baseUrl st path with
    | none => none
    | some (none, st1) => some (.error .NotFound, st1)
    | some (some _, st1) =>
      let len := content.length
      if offset < len then
        let sz := if offset + size > len then len - offset else size
        some (.ok ((content.drop offset).take sz), st1)
      else
        some (.ok [], st1)

/-! ## Helper lemmas. -/

theorem mkData (s : String) : (⟨s.data⟩ : String) = s := rfl

theorem splitLast_none {d : Char} {cs : List Char} (h : d ∉ cs) :
    splitLast d cs = none := by
  induction cs with
  | nil => rfl
  | cons c cs ih =>
    have hc : ¬c = d := fun he => h (he ▸ List.mem_cons_self c cs)
    have hcs : d ∉ cs := fun hm => h (List.mem_cons_of_mem c hm)
    simp [splitLast, ih hcs, hc]

theorem splitLast_append {d : Char} (p : List Char) {f : List Char}
    (h : d ∉ f) : splitLast d (p ++ d :: f) = some (p, f) := by
  induction p with
  | nil => simp [splitLast, splitLast_none h]
  | cons c p ih => simp [splitLast, ih]

theorem getDirIndex_hit (fetch : String → Nat × String) (baseUrl : String)
    (st : FsState) (path : String) (v : Option DirIndex)
    (h : st.cache.lookup (baseUrl ++ path) = some v) :
    getDirIndex fetch baseUrl st path = some (v, st) := by
  unfold getDirIndex
  simp only [h]

theorem getDirIndex_miss_fail (fetch : String → Nat × String)
    (baseUrl : String) (st : FsState) (path : String)
    (hmiss : st.cache.lookup (baseUrl ++ path) = none)
    (hst : (fetch (baseUrl ++ path ++ "/.dirindex")).1 ≠ 200) :
    getDirIndex fetch baseUrl st path =
      some (none, ⟨(baseUrl ++ path, none) :: st.cache,
                   st.trace ++ [baseUrl ++ path ++ "/.dirindex"]⟩) := by
  unfold getDirIndex
  simp only [hmiss, if_neg hst]

theorem getDirIndex_miss_ok (fetch : String → Nat × String)
    (baseUrl : String) (st : FsState) (path : String) (di : DirIndex)
    (hmiss : st.cache.lookup (baseUrl ++ path) = none)
    (h200 : (fetch (baseUrl ++ path ++ "/.dirindex")).1 = 200)
    (hp : DirIndex.parse (fetch (baseUrl ++ path ++ "/.dirindex")).2 = some di) :
    getDirIndex fetch baseUrl st path =
      some (some di, ⟨(baseUrl ++ path, some di) :: st.cache,
                      st.trace ++ [baseUrl ++ path ++ "/.dirindex"]⟩) := by
  unfold getDirIndex
  simp only [hmiss, h200, hp]
  simp

theorem getDirIndexEntry_no_sep (fetch : String → Nat × String)
    (baseUrl : String) (st : FsState) (path : String)
    (h : '/' ∉ path.data) :
    getDirIndexEntry fetch baseUrl st path = some (none, st) := by
  unfold getDirIndexEntry
  simp only [splitLast_none h]

theorem getDirIndexEntry_split (fetch : String → Nat × String)
    (baseUrl : String) (st : FsState) (parent leaf : String)
    (hleaf : '/' ∉ leaf.data) :
    getDirIndexEntry fetch baseUrl st (parent ++ "/" ++ leaf) =
      match getDirIndex fetch baseUrl st parent with
      | none => none
      | some (none, st1) => some (none, st1)
      | some (some di, st1) => some (di.find leaf, st1) := by
  unfold getDirIndexEntry
  have hdat : (parent ++ "/" ++ leaf).data = parent.data ++ '/' :: leaf.data := by
    simp [String.data_append]
  rw [hdat, splitLast_append parent.data hleaf]

theorem splitLast_spec {d : Char} {cs : List Char} (h : d ∈ cs) :
    ∃ p f, splitLast d cs = some (p, f) ∧ cs = p ++ d :: f ∧ d ∉ f := by
  induction cs with
  | nil => cases h
  | cons c cs ih =>
    by_cases hd : d ∈ cs
    · obtain ⟨p, f, h1, h2, h3⟩ := ih hd
      exact ⟨c :: p, f, by simp [splitLast, h1], by simp [h2], h3⟩
    · have hc : c = d := by
        rcases List.mem_cons.mp h with h | h
        · exact h.symm
        · exact absurd h hd
      exact ⟨[], cs, by simp [splitLast, splitLast_none hd, hc], by simp [hc], hd⟩

theorem find?_first (l : List DirIndexEntry) (name : String) :
    (l.find? (fun e => e.name == name) = none ∧ ∀ e ∈ l, e.name ≠ name) ∨
    (∃ i, ∃ h : i < l.length,
       l.find? (fun e => e.name == name) = some (l.get ⟨i, h⟩) ∧
       (l.get ⟨i, h⟩).name = name ∧ ∀ e ∈ l.take i, e.name ≠ name) := by
  induction l with
  | nil => left; simp
  | cons a l ih =>
    by_cases ha : a.name = name
    · right
      refine ⟨0, by simp, ?_, by simpa using ha, by simp⟩
      simp [List.find?_cons_of_pos, ha]
    · have hfind : (a :: l).find? (fun e => e.name == name) =
          l.find? (fun e => e.name == name) := by
        apply List.find?_cons_of_neg
        simpa using ha
      rcases ih with ⟨h1, h2⟩ | ⟨i, hi, h1, h2, h3⟩
      · left
        refine ⟨by rw [hfind, h1], ?_⟩
        intro e he
        rcases List.mem_cons.1 he with rfl | he
        · exact ha
        · exact h2 e he
      · right
        refine ⟨i + 1, by simpa using Nat.succ_lt_succ hi, ?_, ?_, ?_⟩
        · rw [hfind, h1]; rfl
        · exact h2
        · intro e he
          rcases List.mem_cons.1 (by simpa using he) with rfl | he'
          · exact ha
          · exact h3 e he'

/-! ## Claim theorems. -/

/-- C5: parsing the listing text consisting of the lines `version:1`,
`d:Sub`, `f:a.txt:x:42` yields a listing whose entries are exactly two,
in source order: first a directory entry named `Sub`, then a file entry
named `a.txt` with size 42. -/
theorem claim5_parse_listing :
    DirIndex.parse "version:1\nd:Sub\nf:a.txt:x:42" =
      some ⟨1, "", [.dir "Sub", .file "a.txt" 42]⟩ := by decide

/-- C7 counterexample: `getAttr "/"` produces mode `S_IFDIR ||| 0o544`,
whose permission bits do not grant execute to group and others, contrary
to the claim's "read/execute permission for owner, group and others"
(which would require the permission bits to contain `0o555`). -/
theorem claim7_cex_root_attr_mode :
    getAttr (fun _ => (404, "")) "http://example.org" false initState "/" =
      some (.ok ⟨S_IFDIR ||| 0o544, 0, 1⟩, initState) ∧
    ¬((S_IFDIR ||| 0o544) &&& 0o555 = 0o555) := by
  constructor
  · rfl
  · decide

/-- C7 amended: `getAttr "/"` always returns the fixed directory
attributes mode `S_IFDIR ||| 0o544` (read and execute for the owner,
read only for group and others), size 0 and link count 1, for every
cache state, every transport client and either staticRoot setting,
leaving the state unchanged (hence with no network access). -/
theorem claim7_root_fixed_attrs (fetch : String → Nat × String)
    (baseUrl : String) (staticRoot : Bool) (st : FsState) :
    getAttr fetch baseUrl staticRoot st "/" =
      some (.ok ⟨S_IFDIR ||| 0o544, 0, 1⟩, st) := by
  unfold getAttr
  simp

/-- C6: with staticRoot enabled, `readDir "/"` returns exactly the four
fixed top-level category names as directory-mode entries and leaves the
state (hence the transport-call trace) unchanged; with staticRoot
disabled, the same call is resolved by `getDirIndex "/"` (the listing
cache) in every case. -/
theorem claim6_static_root_listing :
    (∀ (fetch : String → Nat × String) (baseUrl : String) (st : FsState),
       readDir fetch baseUrl true st "/" =
         some (.ok [⟨"Airports", S_IFDIR ||| 0o544, 0, 1⟩,
                    ⟨"Objects", S_IFDIR ||| 0o544, 0, 1⟩,
                    ⟨"Models", S_IFDIR ||| 0o544, 0, 1⟩,
                    ⟨"Terrain", S_IFDIR ||| 0o544, 0, 1⟩], st)) ∧
    (∀ (fetch : String → Nat × String) (baseUrl : String) (st : FsState),
       readDir fetch baseUrl false st "/" =
         (match getDirIndex fetch baseUrl st "/" with
          | none => none
          | some (none, st1) => some (.error .NotFound, st1)
          | some (some di, st1) => some (.ok (di.entries.map entryStat), st1))) := by
  constructor
  · intro fetch baseUrl st
    unfold readDir
    simp
  · intro fetch baseUrl st
    unfold readDir
    simp

/-- C3: for a read-only `read` on a resolvable path with buffered
content of length `L`, an offset at or past `L` yields zero bytes, and
an offset below `L` yields exactly `min size (L - offset)` bytes, namely
the bytes of the buffer starting at `offset`. -/
theorem claim3_read_bounds (fetch : String → Nat × String)
    (baseUrl : String) (st : FsState) (path : String) (flags : Nat)
    (content : List Char) (size offset : Nat)
    (hflags : flags &&& 3 = 0)
    (e : DirIndexEntry) (st1 : FsState)
    (hres : getDirIndexEntry fetch baseUrl st path = some (some e, st1)) :
    (content.length ≤ offset →
       readFile fetch baseUrl st path flags content size offset =
         some (.ok [], st1)) ∧
    (offset < content.length →
       readFile fetch baseUrl st path flags content size offset =
         some (.ok ((content.drop offset).take (min size (content.length - offset))), st1) ∧
       ((content.drop offset).take (min size (content.length - offset))).length =
         min size (content.length - offset)) := by
  unfold readFile
  simp only [hflags, hres, ne_eq, not_true_eq_false, if_false, ite_false]
  constructor
  · intro h
    have hlt : ¬offset < content.length := Nat.not_lt.2 h
    simp [hlt]
  · intro h
    have hsz : (if offset + size > content.length then content.length - offset else size) =
        min size (content.length - offset) := by
      by_cases hc : offset + size > content.length
      · simp only [if_pos hc]
        omega
      · simp only [if_neg hc]
        omega
    refine ⟨by simp [h, hsz], ?_⟩
    simp [List.length_take, List.length_drop]

/-- C3 witness: on the 10-byte buffer `0123456789` with offset 7 and
requested size 10, a read-only read over a resolvable path returns
exactly the 3 bytes `789`. -/
theorem claim3_read_bounds_witness :
    readFile (fun _ => (200, "d:x")) "u" initState "/x" 0
        "0123456789".data 10 7 =
      some (.ok "789".data,
            ⟨[("u", some ⟨0, "", [.dir "x"]⟩)], ["u/.dirindex"]⟩) := by
  have h := (claim3_read_bounds (fun _ => (200, "d:x")) "u" initState "/x" 0
    "0123456789".data 10 7 (by decide) (.dir "x")
    ⟨[("u", some ⟨0, "", [.dir "x"]⟩)], ["u/.dirindex"]⟩ (by decide)).2
    (by decide)
  exact h.1.trans (by decide)

/-- C4: `open` with write intent fails with PermissionDenied leaving the
state untouched (no resolution, no network); a read-only open of an
unresolvable path fails with NotFound; and when the entry resolves but
the content fetch of `baseUrl ++ path` is not a 200, open fails with
NotFound and the result carries no handle. -/
theorem claim4_open_errors :
    (∀ (fetch : String → Nat × String) (baseUrl : String) (st : FsState)
       (path : String) (flags : Nat), flags &&& 3 ≠ 0 →
       openFile fetch baseUrl st path flags =
         some (.error .PermissionDenied, st)) ∧
    (∀ (fetch : String → Nat × String) (baseUrl : String) (st st1 : FsState)
       (path : String) (flags : Nat), flags &&& 3 = 0 →
       getDirIndexEntry fetch baseUrl st path = some (none, st1) →
       openFile fetch baseUrl st path flags =
         some (.error .NotFound, st1)) ∧
    (∀ (fetch : String → Nat × String) (baseUrl : String) (st st1 : FsState)
       (path : String) (flags : Nat) (e : DirIndexEntry), flags &&& 3 = 0 →
       getDirIndexEntry fetch baseUrl st path = some (some e, st1) →
       (fetch (baseUrl ++ path)).1 ≠ 200 →
       openFile fetch baseUrl st path flags =
         some (.error .NotFound, ⟨st1.cache, st1.trace ++ [baseUrl ++ path]⟩)) := by
  refine ⟨?_, ?_, ?_⟩
  · intro fetch baseUrl st path flags hw
    unfold openFile
    simp [hw]
  · intro fetch baseUrl st st1 path flags hr hres
    unfold openFile
    simp [hr, hres]
  · intro fetch baseUrl st st1 path flags e hr hres hfail
    unfold openFile
    simp [hr, hres, hfail]

/-- C4 witness: write intent is denied with no state change; a missing
entry opens as NotFound; an existing entry whose content fetch returns
404 opens as NotFound with the content URL traced but no handle. -/
theorem claim4_open_errors_witness :
    openFile (fun _ => (404, "")) "u" initState "/x" 1 =
      some (.error .PermissionDenied, initState) ∧
    openFile (fun _ => (404, "")) "u" initState "/x" 0 =
      some (.error .NotFound, ⟨[("u", none)], ["u/.dirindex"]⟩) ∧
    openFile (fun s => if s = "u/.dirindex" then (200, "d:x") else (404, ""))
        "u" initState "/x" 0 =
      some (.error .NotFound,
            ⟨[("u", some ⟨0, "", [.dir "x"]⟩)], ["u/.dirindex", "u/x"]⟩) := by
  refine ⟨?_, ?_, ?_⟩
  · exact claim4_open_errors.1 (fun _ => (404, "")) "u" initState "/x" 1 (by decide)
  · have h := claim4_open_errors.2.1 (fun _ => (404, "")) "u" initState
      ⟨[("u", none)], ["u/.dirindex"]⟩ "/x" 0 (by decide) (by decide)
    exact h
  · have h := claim4_open_errors.2.2
      (fun s => if s = "u/.dirindex" then (200, "d:x") else (404, "")) "u"
      initState ⟨[("u", some ⟨0, "", [.dir "x"]⟩)], ["u/.dirindex"]⟩ "/x" 0
      (.dir "x") (by decide) (by decide) (by decide)
    exact h

/-- C8: whenever the listing of `path` resolves (and the static-root
shortcut does not apply), `readDir` emits exactly one record per entry
in listing order; every record keeps the entry's name and carries the
`S_IFDIR` directory-signaling mode bit, with declared size 0 for
directory entries and the entry's byte size for file entries. -/
theorem claim8_readdir_records (fetch : String → Nat × String)
    (baseUrl : String) (staticRoot : Bool) (st : FsState) (path : String)
    (di : DirIndex) (st1 : FsState)
    (hnr : staticRoot = false ∨ path ≠ "/")
    (hdi : getDirIndex fetch baseUrl st path = some (some di, st1)) :
    readDir fetch baseUrl staticRoot st path =
      some (.ok (di.entries.map entryStat), st1) ∧
    ∀ e ∈ di.entries,
      (entryStat e).name = e.name ∧
      (entryStat e).mode &&& S_IFDIR = S_IFDIR ∧
      (entryStat e).size = (match e with | .dir _ => 0 | .file _ sz => sz) := by
  constructor
  · unfold readDir
    have hcond : ¬(staticRoot = true ∧ path = "/") := by
      rcases hnr with h | h
      · rintro ⟨h1, -⟩
        rw [h] at h1
        exact Bool.false_ne_true h1
      · rintro ⟨-, h2⟩
        exact h h2
    simp [hcond, hdi]
  · intro e _
    cases e with
    | dir n =>
      refine ⟨rfl, ?_, rfl⟩
      show (S_IFDIR ||| 544) &&& S_IFDIR = S_IFDIR
      decide
    | file n sz =>
      refine ⟨rfl, ?_, rfl⟩
      show (S_IFDIR ||| 0o444) &&& S_IFDIR = S_IFDIR
      decide

/-- C8 witness: a directory resolving to the listing `d:Sub`,
`f:a.txt:x:42` lists the record for `Sub` (directory mode bits, size 0)
and the record for `a.txt` (directory-like mode bits, size 42), in that
order. -/
theorem claim8_readdir_records_witness :
    readDir (fun _ => (200, "d:Sub\nf:a.txt:x:42")) "u" false initState "/Dir" =
      some (.ok [⟨"Sub", S_IFDIR ||| 544, 0, 1⟩,
                 ⟨"a.txt", S_IFDIR ||| 0o444, 42, 1⟩],
            ⟨[("u/Dir", some ⟨0, "", [.dir "Sub", .file "a.txt" 42]⟩)],
             ["u/Dir/.dirindex"]⟩) := by
  have h := (claim8_readdir_records (fun _ => (200, "d:Sub\nf:a.txt:x:42"))
    "u" false initState "/Dir" ⟨0, "", [.dir "Sub", .file "a.txt" 42]⟩
    ⟨[("u/Dir", some ⟨0, "", [.dir "Sub", .file "a.txt" 42]⟩)],
     ["u/Dir/.dirindex"]⟩ (Or.inl rfl) (by decide)).1
  exact h.trans (by decide)

/-- C1: a cached directory URL (whether holding a listing or the absent
marker) is answered from the cache with the state — and hence the
transport trace — unchanged; a URL never seen before is fetched exactly
once even across two `getDirIndexEntry` calls for different leaves under
the same parent; and a non-success fetch is cached as the absent marker,
so later lookups under that parent return absent with no second fetch. -/
theorem claim1_listing_cache :
    (∀ (fetch : String → Nat × String) (baseUrl : String) (st : FsState)
       (path : String) (v : Option DirIndex),
       st.cache.lookup (baseUrl ++ path) = some v →
       getDirIndex fetch baseUrl st path = some (v, st)) ∧
    (∀ (fetch : String → Nat × String) (baseUrl : String) (st : FsState)
       (parent leaf1 leaf2 : String) (di : DirIndex),
       st.cache.lookup (baseUrl ++ parent) = none →
       '/' ∉ leaf1.data → '/' ∉ leaf2.data →
       ((fetch (baseUrl ++ parent ++ "/.dirindex")).1 = 200 →
          DirIndex.parse (fetch (baseUrl ++ parent ++ "/.dirindex")).2 = some di) →
       ∃ r1 r2 st1 st2,
         getDirIndexEntry fetch baseUrl st (parent ++ "/" ++ leaf1) =
           some (r1, st1) ∧
         getDirIndexEntry fetch baseUrl st1 (parent ++ "/" ++ leaf2) =
           some (r2, st2) ∧
         st2.trace = st.trace ++ [baseUrl ++ parent ++ "/.dirindex"]) ∧
    (∀ (fetch : String → Nat × String) (baseUrl : String) (st : FsState)
       (parent leaf1 leaf2 : String),
       st.cache.lookup (baseUrl ++ parent) = none →
       '/' ∉ leaf1.data → '/' ∉ leaf2.data →
       (fetch (baseUrl ++ parent ++ "/.dirindex")).1 ≠ 200 →
       ∃ st1 : FsState,
         getDirIndexEntry fetch baseUrl st (parent ++ "/" ++ leaf1) =
           some (none, st1) ∧
         getDirIndexEntry fetch baseUrl st1 (parent ++ "/" ++ leaf2) =
           some (none, st1) ∧
         st1.trace = st.trace ++ [baseUrl ++ parent ++ "/.dirindex"] ∧
         st1.cache.lookup (baseUrl ++ parent) = some none) := by
  refine ⟨getDirIndex_hit, ?_, ?_⟩
  · intro fetch baseUrl st parent leaf1 leaf2 di hmiss hl1 hl2 hparse
    by_cases h200 : (fetch (baseUrl ++ parent ++ "/.dirindex")).1 = 200
    · have g1 := getDirIndex_miss_ok fetch baseUrl st parent di hmiss h200
        (hparse h200)
      refine ⟨di.find leaf1, di.find leaf2,
        ⟨(baseUrl ++ parent, some di) :: st.cache,
         st.trace ++ [baseUrl ++ parent ++ "/.dirindex"]⟩,
        ⟨(baseUrl ++ parent, some di) :: st.cache,
         st.trace ++ [baseUrl ++ parent ++ "/.dirindex"]⟩, ?_, ?_, rfl⟩
      · rw [getDirIndexEntry_split fetch baseUrl st parent leaf1 hl1, g1]
      · rw [getDirIndexEntry_split fetch baseUrl _ parent leaf2 hl2,
          getDirIndex_hit fetch baseUrl _ parent (some di) (by simp)]
    · have g1 := getDirIndex_miss_fail fetch baseUrl st parent hmiss h200
      refine ⟨none, none,
        ⟨(baseUrl ++ parent, none) :: st.cache,
         st.trace ++ [baseUrl ++ parent ++ "/.dirindex"]⟩,
        ⟨(baseUrl ++ parent, none) :: st.cache,
         st.trace ++ [baseUrl ++ parent ++ "/.dirindex"]⟩, ?_, ?_, rfl⟩
      · rw [getDirIndexEntry_split fetch baseUrl st parent leaf1 hl1, g1]
      · rw [getDirIndexEntry_split fetch baseUrl _ parent leaf2 hl2,
          getDirIndex_hit fetch baseUrl _ parent none (by simp)]
  · intro fetch baseUrl st parent leaf1 leaf2 hmiss hl1 hl2 h200
    have g1 := getDirIndex_miss_fail fetch baseUrl st parent hmiss h200
    refine ⟨⟨(baseUrl ++ parent, none) :: st.cache,
             st.trace ++ [baseUrl ++ parent ++ "/.dirindex"]⟩, ?_, ?_, rfl, by simp⟩
    · rw [getDirIndexEntry_split fetch baseUrl st parent leaf1 hl1, g1]
    · rw [getDirIndexEntry_split fetch baseUrl _ parent leaf2 hl2,
        getDirIndex_hit fetch baseUrl _ parent none (by simp)]

/-- C1 witness: with every fetch answering 404, a cache holding
`u/p` is answered without state change, and two resolutions of
different leaves under the never-seen parent `/p` trigger exactly one
fetch, cache the absent marker and both return absent. -/
theorem claim1_listing_cache_witness :
    getDirIndex (fun _ => (404, "")) "u"
        ⟨[("u/p", some emptyDirIndex)], []⟩ "/p" =
      some (some emptyDirIndex, ⟨[("u/p", some emptyDirIndex)], []⟩) ∧
    (∃ st1 : FsState,
      getDirIndexEntry (fun _ => (404, "")) "u" initState ("/p" ++ "/" ++ "a") =
        some (none, st1) ∧
      getDirIndexEntry (fun _ => (404, "")) "u" st1 ("/p" ++ "/" ++ "b") =
        some (none, st1) ∧
      st1.trace = initState.trace ++ ["u/p/.dirindex"] ∧
      st1.cache.lookup "u/p" = some none) := by
  constructor
  · exact claim1_listing_cache.1 (fun _ => (404, "")) "u"
      ⟨[("u/p", some emptyDirIndex)], []⟩ "/p" (some emptyDirIndex) (by decide)
  · exact claim1_listing_cache.2.2 (fun _ => (404, "")) "u" initState
      "/p" "a" "b" (by decide) (by decide) (by decide) (by decide)

/-- C2: resolving a path without a separator yields absent; a path
`parent ++ "/" ++ leaf` (its split at the last separator) yields absent
when the parent's listing is absent and otherwise `find leaf` on the
parent's listing; every path containing a separator admits such a
last-separator decomposition; and `find` returns the first entry in
source order whose name equals the leaf, or absent if no entry's name
matches. -/
theorem claim2_resolve_entry :
    (∀ (fetch : String → Nat × String) (baseUrl : String) (st : FsState)
       (path : String), '/' ∉ path.data →
       getDirIndexEntry fetch baseUrl st path = some (none, st)) ∧
    (∀ (fetch : String → Nat × String) (baseUrl : String) (st st1 : FsState)
       (parent leaf : String), '/' ∉ leaf.data →
       (getDirIndex fetch baseUrl st parent = some (none, st1) →
          getDirIndexEntry fetch baseUrl st (parent ++ "/" ++ leaf) =
            some (none, st1)) ∧
       (∀ di : DirIndex,
          getDirIndex fetch baseUrl st parent = some (some di, st1) →
          getDirIndexEntry fetch baseUrl st (parent ++ "/" ++ leaf) =
            some (di.find leaf, st1))) ∧
    (∀ path : String, '/' ∈ path.data →
       ∃ parent leaf : String,
         path = parent ++ "/" ++ leaf ∧ '/' ∉ leaf.data) ∧
    (∀ (di : DirIndex) (name : String),
       (di.find name = none ∧ ∀ e ∈ di.entries, e.name ≠ name) ∨
       (∃ i, ∃ h : i < di.entries.length,
          di.find name = some (di.entries.get ⟨i, h⟩) ∧
          (di.entries.get ⟨i, h⟩).name = name ∧
          ∀ e ∈ di.entries.take i, e.name ≠ name)) := by
  refine ⟨getDirIndexEntry_no_sep, ?_, ?_, ?_⟩
  · intro fetch baseUrl st st1 parent leaf hleaf
    constructor
    · intro h
      rw [getDirIndexEntry_split fetch baseUrl st parent leaf hleaf, h]
    · intro di h
      rw [getDirIndexEntry_split fetch baseUrl st parent leaf hleaf, h]
  · intro path hsep
    obtain ⟨p, f, -, h2, h3⟩ := splitLast_spec hsep
    refine ⟨⟨p⟩, ⟨f⟩, ?_, h3⟩
    apply String.ext
    simp [String.data_append, h2]
  · intro di name
    exact find?_first di.entries name

/-- C2 witness: the separator-free path `abc` resolves to absent with
the state unchanged, and under a parent whose listing holds the single
directory entry `a`, the leaf `a` resolves to that entry. -/
theorem claim2_resolve_entry_witness :
    getDirIndexEntry (fun _ => (404, "")) "u" initState "abc" =
      some (none, initState) ∧
    getDirIndexEntry (fun _ => (200, "d:a")) "u" initState ("/p" ++ "/" ++ "a") =
      some (some (.dir "a"),
            ⟨[("u/p", some ⟨0, "", [.dir "a"]⟩)], ["u/p/.dirindex"]⟩) := by
  constructor
  · exact claim2_resolve_entry.1 (fun _ => (404, "")) "u" initState "abc"
      (by decide)
  · exact (claim2_resolve_entry.2.1 (fun _ => (200, "d:a")) "u" initState
      ⟨[("u/p", some ⟨0, "", [.dir "a"]⟩)], ["u/p/.dirindex"]⟩ "/p" "a"
      (by decide)).2 ⟨0, "", [.dir "a"]⟩ (by decide)

/-! ## C9: the parser precondition. -/

theorem cppSplitList_cons_ne_nil (d c : Char) (cs : List Char) :
    cppSplitList d (c :: cs) ≠ [] := by
  unfold cppSplitList
  split
  · simp
  · split <;> simp

theorem cppSplit_ne_nil (s : String) (d : Char) (h : s ≠ "") :
    cppSplit s d ≠ [] := by
  unfold cppSplit
  cases s with
  | mk l =>
    cases l with
    | nil => exact absurd rfl h
    | cons c cs =>
      intro hmap
      exact cppSplitList_cons_ne_nil d c cs (List.map_eq_nil_iff.mp hmap)

theorem parseTokens_total (di : DirIndex) (t0 : String) (rest : List String)
    (hv : t0 = "version" → 2 ≤ (t0 :: rest).length ∧
       (cppStol ((t0 :: rest).getD 1 "")).isSome = true)
    (hd : t0 = "d" → 2 ≤ (t0 :: rest).length)
    (hf : t0 = "f" → 4 ≤ (t0 :: rest).length ∧
       (cppStol ((t0 :: rest).getD 3 "")).isSome = true) :
    (parseTokens di (t0 :: rest)).isSome = true := by
  unfold parseTokens
  by_cases h0 : t0 = "version"
  · obtain ⟨hlen, hstol⟩ := hv h0
    rcases rest with _ | ⟨t1, rest1⟩
    · simp at hlen
    · obtain ⟨v, hv1⟩ := Option.isSome_iff_exists.mp (by simpa using hstol)
      simp [h0, hv1]
  · by_cases h1 : t0 = "path"
    · simp [h0, h1]
    · by_cases h2 : t0 = "d"
      · have hlen := hd h2
        rcases rest with _ | ⟨t1, rest1⟩
        · simp at hlen
        · simp [h0, h1, h2]
      · by_cases h3 : t0 = "f"
        · obtain ⟨hlen, hstol⟩ := hf h3
          rcases rest with _ | ⟨t1, rest1⟩
          · simp at hlen
          rcases rest1 with _ | ⟨t2, rest2⟩
          · simp at hlen
          rcases rest2 with _ | ⟨t3, rest3⟩
          · simp at hlen
          obtain ⟨v, hv1⟩ := Option.isSome_iff_exists.mp (by simpa using hstol)
          simp [h0, h1, h2, h3, hv1]
        · simp [h0, h1, h2, h3]

theorem parseLine_total (di : DirIndex) (line : String) (h : linePre line) :
    (parseLine di line).isSome = true := by
  obtain ⟨hne, hv, hd, hf⟩ := h
  unfold parseLine
  rcases hts : cppSplit line ':' with _ | ⟨t0, rest⟩
  · exact absurd hts (cppSplit_ne_nil line ':' hne)
  · rw [hts] at hv hd hf
    simp only [List.headD_cons] at hv hd hf
    exact parseTokens_total di t0 rest hv hd hf

theorem parse_total_aux (lines : List String) (di : DirIndex)
    (h : ∀ l ∈ lines, linePre l) :
    (List.foldlM parseLine di lines).isSome = true := by
  induction lines generalizing di with
  | nil => simp
  | cons l ls ih =>
    obtain ⟨di1, hdi1⟩ := Option.isSome_iff_exists.mp
      (parseLine_total di l (h l (List.mem_cons_self l ls)))
    rw [List.foldlM_cons, hdi1]
    simpa using ih di1 (fun x hx => h x (List.mem_cons_of_mem l hx))

/-- C9: under the precondition that every line of the input is non-empty,
every `version` line has a `stol`-parseable second token (syntactically
valid and within `long`'s range), every `d` and `f` line has at least
two tokens, and every `f` line has at least four tokens with a
`stol`-parseable fourth, the listing parser returns a listing (no token
index is out of range and no integer conversion fails); outside the
precondition it can fail instead of returning a listing, as on the lone
short `f` line, on an input with an empty line, and on a `version` line
whose value overflows `long`. -/
theorem claim9_parse_precondition :
    (∀ data : String,
       (∀ l ∈ cppSplit data '\n', linePre l) →
       (DirIndex.parse data).isSome = true) ∧
    DirIndex.parse "f" = none ∧
    DirIndex.parse "d:a\n\nd:b" = none ∧
    DirIndex.parse "version:99999999999999999999999" = none := by
  refine ⟨?_, by decide, by decide, by decide⟩
  intro data h
  exact parse_total_aux (cppSplit data '\n') emptyDirIndex h

/-- C9 witness: the well-formed listing text of C5 satisfies the
precondition, and the parser indeed returns a listing on it. -/
theorem claim9_parse_precondition_witness :
    (DirIndex.parse "version:1\nd:Sub\nf:a.txt:x:42").isSome = true :=
  claim9_parse_precondition.1 "version:1\nd:Sub\nf:a.txt:x:42" (by decide)

/-! ## C10: the two cache keys for the root directory. -/

theorem getDirIndex_miss (fetch : String → Nat × String) (baseUrl : String)
    (st : FsState) (path : String)
    (hmiss : st.cache.lookup (baseUrl ++ path) = none)
    (hok : (fetch (baseUrl ++ path ++ "/.dirindex")).1 = 200 →
       (DirIndex.parse (fetch (baseUrl ++ path ++ "/.dirindex")).2).isSome = true) :
    ∃ v, getDirIndex fetch baseUrl st path =
      some (v, ⟨(baseUrl ++ path, v) :: st.cache,
                st.trace ++ [baseUrl ++ path ++ "/.dirindex"]⟩) := by
  by_cases hs : (fetch (baseUrl ++ path ++ "/.dirindex")).1 = 200
  · obtain ⟨di, hdi⟩ := Option.isSome_iff_exists.mp (hok hs)
    exact ⟨some di, getDirIndex_miss_ok fetch baseUrl st path di hmiss hs hdi⟩
  · exact ⟨none, getDirIndex_miss_fail fetch baseUrl st path hmiss hs⟩

theorem readDir_via_cache (fetch : String → Nat × String) (baseUrl : String)
    (st : FsState) (path : String) :
    readDir fetch baseUrl false st path =
      (match getDirIndex fetch baseUrl st path with
       | none => none
       | some (none, st1) => some (.error .NotFound, st1)
       | some (some di, st1) => some (.ok (di.entries.map entryStat), st1)) := by
  unfold readDir
  simp

/-- C10: resolving the entry of a top-level path `"/" ++ name` splits
off the empty parent, so its cache key is `baseUrl` itself and the
listing is fetched from `baseUrl ++ "/.dirindex"`, whereas
`readDir "/"` (without static root) uses the distinct cache key
`baseUrl ++ "/"` and fetches `baseUrl ++ "//.dirindex"`: starting from
the empty cache, the two calls perform one fetch each and leave the
root's listing under two different cache keys. -/
theorem claim10_root_two_cache_keys (fetch : String → Nat × String)
    (baseUrl name : String) (hn : '/' ∉ name.data)
    (h1 : (fetch (baseUrl ++ "/.dirindex")).1 = 200 →
       (DirIndex.parse (fetch (baseUrl ++ "/.dirindex")).2).isSome = true)
    (h2 : (fetch (baseUrl ++ "//.dirindex")).1 = 200 →
       (DirIndex.parse (fetch (baseUrl ++ "//.dirindex")).2).isSome = true) :
    ∃ r1 st1 r2 st2,
      getDirIndexEntry fetch baseUrl initState ("/" ++ name) = some (r1, st1) ∧
      st1.trace = [baseUrl ++ "/.dirindex"] ∧
      (st1.cache.lookup baseUrl).isSome = true ∧
      readDir fetch baseUrl false st1 "/" = some (r2, st2) ∧
      st2.trace = [baseUrl ++ "/.dirindex", baseUrl ++ "//.dirindex"] ∧
      (st2.cache.lookup (baseUrl ++ "/")).isSome = true ∧
      baseUrl ≠ baseUrl ++ "/" := by
  have hneq : baseUrl ≠ baseUrl ++ "/" := by
    intro h
    have hl := congrArg String.length h
    simp at hl
    exact absurd hl (by decide)
  have hurl : baseUrl ++ "/" ++ "/.dirindex" = baseUrl ++ "//.dirindex" := by
    rw [String.append_assoc]
    rfl
  obtain ⟨v1, g1⟩ := getDirIndex_miss fetch baseUrl initState ""
    (by simp [initState]) (by simpa using h1)
  simp only [String.append_empty] at g1
  have e1 := getDirIndexEntry_split fetch baseUrl initState "" name hn
  simp only [String.empty_append] at e1
  rw [g1] at e1
  have hb : ((baseUrl ++ "/" == baseUrl) = false) := by
    simpa using (Ne.symm hneq)
  have hmiss2 :
      (FsState.cache ⟨(baseUrl, v1) :: initState.cache,
        initState.trace ++ [baseUrl ++ "/.dirindex"]⟩).lookup (baseUrl ++ "/") =
        none := by
    simp [initState, List.lookup_cons, hb]
  obtain ⟨v2, g2⟩ := getDirIndex_miss fetch baseUrl
    ⟨(baseUrl, v1) :: initState.cache,
     initState.trace ++ [baseUrl ++ "/.dirindex"]⟩ "/" hmiss2
    (by rw [hurl]; exact h2)
  rw [hurl] at g2
  have e2 := readDir_via_cache fetch baseUrl
    ⟨(baseUrl, v1) :: initState.cache,
     initState.trace ++ [baseUrl ++ "/.dirindex"]⟩ "/"
  rw [g2] at e2
  cases v1 with
  | none =>
    cases v2 with
    | none =>
      exact ⟨none, _, .error .NotFound, _, e1, by simp [initState], by simp,
        e2, by simp [initState], by simp, hneq⟩
    | some di2 =>
      exact ⟨none, _, .ok (di2.entries.map entryStat), _, e1,
        by simp [initState], by simp, e2, by simp [initState], by simp, hneq⟩
  | some di1 =>
    cases v2 with
    | none =>
      exact ⟨di1.find name, _, .error .NotFound, _, e1, by simp [initState],
        by simp, e2, by simp [initState], by simp, hneq⟩
    | some di2 =>
      exact ⟨di1.find name, _, .ok (di2.entries.map entryStat), _, e1,
        by simp [initState], by simp, e2, by simp [initState], by simp, hneq⟩

/-- C10 witness: with every fetch answering 404 and base URL `u`,
resolving `/x` fetches `u/.dirindex` and caches under key `u`, after
which listing `/` still fetches `u//.dirindex` and caches under the
distinct key `u/`. -/
theorem claim10_root_two_cache_keys_witness :
    ∃ (r1 : Option DirIndexEntry) (st1 : FsState)
      (r2 : Except FsError (List StatRec)) (st2 : FsState),
      getDirIndexEntry (fun _ => (404, "")) "u" initState ("/" ++ "x") =
        some (r1, st1) ∧
      st1.trace = ["u/.dirindex"] ∧
      (st1.cache.lookup "u").isSome = true ∧
      readDir (fun _ => (404, "")) "u" false st1 "/" = some (r2, st2) ∧
      st2.trace = ["u/.dirindex", "u//.dirindex"] ∧
      (st2.cache.lookup ("u" ++ "/")).isSome = true ∧
      "u" ≠ "u" ++ "/" :=
  claim10_root_two_cache_keys (fun _ => (404, "")) "u" "x" (by decide)
    (by intro h; exact absurd h (by decide)) (by intro h; exact absurd h (by decide))

end Terrafs
